import Mathlib

/-
Verification development for the etcd-backed KV client in
src/cluster/kv/etcd/store.go. The Go code is shallowly embedded:
protobuf payloads are opaque byte lists, Go int/int64 are Int,
the etcd transport is a parameter supplying the responses the Go
code would receive, and the one-slot cache wakeup channel is a Bool
(true = the slot is full). All keys appearing below are the
fully-qualified keys (after opts.ApplyPrefix), which is the form in
which the client touches the cache and the transport.
-/

set_option autoImplicit false

namespace M3KV

/-- Mirror of the package's `value` struct: opaque bytes, per-key version
(etcd `Version`), and global mod revision (etcd `ModRevision`). -/
structure EValue where
  val : List Nat
  ver : Int
  rev : Int
deriving DecidableEq

/-- A `kv.Value` as seen by `value.IsNewer`: either another `*value` from this
package (which carries a revision) or a foreign implementation of the
interface, of which only `Version()` is available. -/
inductive KVValue
  | ev (v : EValue)
  | foreign (ver : Int)
deriving DecidableEq

/-- `Version()` of a `kv.Value`: for the package's `*value` it is `int(c.Ver)`. -/
def KVValue.Version : KVValue → Int
  | .ev v => v.ver
  | .foreign ver => ver

/-- Mirror of `newValue(val, ver, rev)`. -/
def newValue (val : List Nat) (ver rev : Int) : EValue :=
  ⟨val, ver, rev⟩

/-- Mirror of `value.IsNewer`: the type assertion `other.(*value)` succeeds
exactly on the `ev` branch, where revisions are compared; otherwise the
versions are compared. -/
def IsNewer (c : EValue) (other : KVValue) : Bool :=
  match other with
  | .ev o => decide (c.rev > o.rev)
  | .foreign ver => decide (c.ver > ver)

/-- The in-memory cache map `valueCache.Values` as an association list with
at most one binding per key (the Go map invariant). -/
abbrev Cache := List (String × EValue)

/-- Go map lookup `cache.Values[key]`. -/
def cacheLookup : Cache → String → Option EValue
  | [], _ => none
  | (k, v) :: rest, key => if k = key then some v else cacheLookup rest key

/-- Go `delete(cache.Values, key)`. -/
def cacheErase : Cache → String → Cache
  | [], _ => []
  | (k, v) :: rest, key =>
      if k = key then cacheErase rest key else (k, v) :: cacheErase rest key

/-- Go map assignment `cache.Values[key] = v`. -/
def cacheSet : Cache → String → EValue → Cache
  | [], key, v => [(key, v)]
  | (k, w) :: rest, key, v =>
      if k = key then (key, v) :: rest else (k, w) :: cacheSet rest key v

/-- Mirror of `notifyCacheUpdate`: a non-blocking send on the one-slot
`cacheUpdatedCh`. Whether the slot was empty (send succeeds) or full
(send dropped), the slot is full afterwards. -/
def notifyCacheUpdate (ch : Bool) : Bool :=
  true || ch

/-- Mirror of `client.deleteCache`: return without touching the map or the
channel when the key is absent; otherwise delete and notify. -/
def deleteCache (cache : Cache) (ch : Bool) (key : String) : Cache × Bool :=
  match cacheLookup cache key with
  | none => (cache, ch)
  | some _ => (cacheErase cache key, notifyCacheUpdate ch)

/-- Mirror of `client.getCache`. -/
def getCache (cache : Cache) (key : String) : Option EValue :=
  cacheLookup cache key

/-- Mirror of `client.mergeCache`: store and notify iff the key is absent or
the incoming value is newer than the current entry. Entries in the cache are
`*value`, so `IsNewer` compares revisions here. -/
def mergeCache (cache : Cache) (ch : Bool) (key : String) (v : EValue) : Cache × Bool :=
  match cacheLookup cache key with
  | none => (cacheSet cache key v, notifyCacheUpdate ch)
  | some cur =>
      if IsNewer v (KVValue.ev cur) then (cacheSet cache key v, notifyCacheUpdate ch)
      else (cache, ch)

/-- Error kinds the client surfaces. `transport` stands for an arbitrary
error returned by the etcd client; `couldNotFindVersion v` is the
`fmt.Errorf("could not find version %d ...")` in History; `outOfFuel` is a
modelling device standing for non-termination of History's backward walk;
`panicked` stands for a Go index-out-of-range panic (indexing `PrevKvs[0]`
on an empty slice), which etcd's contract makes unreachable. -/
inductive KVError
  | notFound
  | versionMismatch
  | alreadyExists
  | invalidHistoryVersion
  | conditionCheckFailed
  | unknownTargetType
  | unknownCompareType
  | unknownOpType
  | nilPutResponse
  | marshalError
  | couldNotFindVersion (ver : Int)
  | outOfFuel
  | panicked
  | transport (code : Nat)
deriving DecidableEq

/-- A response to an etcd range read: either a transport error or a list of
KVs (the Go `r.Count` is the length of `kvs`). -/
inductive GetResp
  | terr (code : Nat)
  | resp (kvs : List EValue)
deriving DecidableEq

/-- Mirror of `client.get` (point read on a fully-qualified key), given the
transport's response: on error fall back to the cache; on zero count delete
any cache entry and fail NotFound; on success build the value, merge it into
the cache and return it. -/
def clientGet (r : GetResp) (key : String) (cache : Cache) (ch : Bool) :
    Except KVError EValue × Cache × Bool :=
  match r with
  | .terr code =>
      match getCache cache key with
      | some v => (.ok v, cache, ch)
      | none => (.error (.transport code), cache, ch)
  | .resp [] => (.error .notFound, deleteCache cache ch key)
  | .resp (kv :: _) =>
      (.ok (newValue kv.val kv.ver kv.rev),
       mergeCache cache ch key (newValue kv.val kv.ver kv.rev))

/-- Mirror of `client.getFromKVStore`, with the retrier of src/x/retry
(not under src/) modelled from the spec: `Modelled from the spec:` the
retrier performs a bounded sequence of attempts, stopping early on success
or on the NonRetryableError wrapper; the one non-retryable condition is
NotFound. The list `attempts` holds the transport response each successive
attempt would receive (the Go retrier always makes at least one attempt, so
`attempts` is nonempty in every statement below). A NotFound outcome yields
a nil value with a nil error, exactly as the Go function's
`GetInnerNonRetryableError(execErr) != kv.ErrNotFound` guard does. -/
def getFromKVStore (key : String) (attempts : List GetResp) (cache : Cache) (ch : Bool) :
    (Option EValue × Option KVError) × Cache × Bool :=
  match attempts with
  | [] => ((none, none), cache, ch)
  | r :: rest =>
      match clientGet r key cache ch with
      | (Except.ok v, c2, ch2) => ((some v, none), c2, ch2)
      | (Except.error KVError.notFound, c2, ch2) => ((none, none), c2, ch2)
      | (Except.error e, c2, ch2) =>
          match rest with
          | [] => ((none, some e), c2, ch2)
          | _ :: _ => getFromKVStore key rest c2 ch2

/-- Etcd watch event type. -/
inductive EventType
  | put
  | del
deriving DecidableEq

/-- An etcd watch event: a type and the event's KV. -/
structure Event where
  etype : EventType
  kv : EValue
deriving DecidableEq

/-- Mirror of `client.getFromEtcdEvents`: inspect the last event of the
batch; a delete event clears the cache entry and yields nil, any other
event builds a value from the event's KV and merges it into the cache.
(The Go code indexes `events[len(events)-1]`, so callers pass a nonempty
batch.) -/
def getFromEtcdEvents (key : String) (events : List Event) (cache : Cache) (ch : Bool) :
    Option EValue × Cache × Bool :=
  match events.getLast? with
  | none => (none, cache, ch)
  | some lastEvent =>
      match lastEvent.etype with
      | .del => (none, deleteCache cache ch key)
      | .put =>
          (some (newValue lastEvent.kv.val lastEvent.kv.ver lastEvent.kv.rev),
           mergeCache cache ch key (newValue lastEvent.kv.val lastEvent.kv.ver lastEvent.kv.rev))

/-- What the single-value update callback does to the watchable: nothing, or
an `Update(v)` delivery (with `upd none` being `Update(nil)`). -/
inductive Delivery
  | noop
  | upd (v : Option EValue)
deriving DecidableEq

/-- The tail of `client.update` (after the value was obtained): the held
value and the new value are compared and an Update is delivered exactly as
in the Go code. The value a single-value watchable holds is a `*value`, so
`IsNewer` is applied on the `ev` branch. -/
def updateFinish (curValue nv : Option EValue) : Delivery :=
  match curValue, nv with
  | none, none => .noop
  | some _, none => .upd none
  | none, some v => .upd (some v)
  | some cur, some v =>
      if IsNewer v (KVValue.ev cur) then .upd (some v) else .noop

/-- Mirror of `client.update` (single-value update callback) for a key whose
watchable is registered and currently holds `curValue`: an empty event batch
triggers the retried point read (whose error aborts the callback), a
nonempty batch is folded through `getFromEtcdEvents`; the result is then
proposed to the watchable via the newer-only rule. -/
def update (key : String) (attempts : List GetResp) (events : List Event)
    (curValue : Option EValue) (cache : Cache) (ch : Bool) : Delivery × Cache × Bool :=
  match events with
  | [] =>
      match getFromKVStore key attempts cache ch with
      | ((_, some _), c2, ch2) => (.noop, c2, ch2)
      | ((nv, none), c2, ch2) => (updateFinish curValue nv, c2, ch2)
  | e :: rest =>
      match getFromEtcdEvents key (e :: rest) cache ch with
      | (nv, c2, ch2) => (updateFinish curValue nv, c2, ch2)

/-- Mirror of `etcdVersionZero`. -/
def etcdVersionZero : Int := 0

/-- Sets `res[i] = some v` as the Go `res[version-from] = ...` does. A
negative index is out of range in Go (panic); the model leaves the slice
unchanged there, and every statement below only exercises in-range
indices. -/
def setAt (l : List (Option EValue)) (i : Int) (v : EValue) : List (Option EValue) :=
  if 0 ≤ i then l.set i.toNat (some v) else l

/-- The backward walk of `client.History` (`for version > from { ... }`).
`hg` is the transport: `hg none` is a plain Get, `hg (some r)` a Get with
`WithRev(r)`. `fuel` bounds the number of iterations; exhausting it stands
for the Go loop not terminating. -/
def historyLoop (hg : Option Int → GetResp) (fromV toV : Int) :
    Nat → Int → Int → List (Option EValue) → Except KVError (List (Option EValue))
  | fuel, version, modRev, res =>
      if version ≤ fromV then .ok res
      else
        match fuel with
        | 0 => .error .outOfFuel
        | fuel' + 1 =>
            match hg (some (modRev - 1)) with
            | .terr code => .error (.transport code)
            | .resp [] => .error (.couldNotFindVersion (version - 1))
            | .resp (v :: _) =>
                historyLoop hg fromV toV fuel' v.ver v.rev
                  (if v.ver < toV then setAt res (v.ver - fromV) (newValue v.val v.ver v.rev)
                   else res)

/-- Mirror of `client.History`: argument validation, the `from == to` early
return, the latest-revision read, the sparse result slice, and the backward
walk. Go's nil slice and empty slice are both `[]`. -/
def History (hg : Option Int → GetResp) (fromV toV : Int) (fuel : Nat) :
    Except KVError (List (Option EValue)) :=
  if fromV > toV ∨ fromV < 0 ∨ toV < 0 then .error .invalidHistoryVersion
  else if fromV = toV then .ok []
  else
    match hg none with
    | .terr code => .error (.transport code)
    | .resp [] => .error .notFound
    | .resp (latestKV :: _) =>
        let version := latestKV.ver
        let modRev := latestKV.rev
        if version < fromV then .ok []
        else
          let numValue :=
            if version - fromV + 1 < toV - fromV then version - fromV + 1 else toV - fromV
          let res0 : List (Option EValue) := List.replicate numValue.toNat none
          let res1 :=
            if version < toV then
              setAt res0 (version - fromV) (newValue latestKV.val latestKV.ver latestKV.rev)
            else res0
          historyLoop hg fromV toV fuel version modRev res1

/-- A protobuf message as the client sees it: the bytes `proto.Marshal`
would produce, plus whether marshalling fails. -/
structure ProtoMsg where
  bytes : List Nat
  marshalFails : Bool
deriving DecidableEq

/-- `proto.Marshal`. -/
def protoMarshal (m : ProtoMsg) : Except KVError (List Nat) :=
  if m.marshalFails then .error .marshalError else .ok m.bytes

/-- A response to an etcd Put with `WithPrevKV()`: a transport error or the
optional previous KV. -/
inductive PutResp
  | terr (code : Nat)
  | resp (prevKv : Option EValue)
deriving DecidableEq

/-- Mirror of `client.Set`: marshal, Put with previous-KV return; the new
version is `prev.Version + 1` when a previous KV is reported, else
`etcdVersionZero + 1`. -/
def Set (doPut : String → List Nat → PutResp) (key : String) (m : ProtoMsg) :
    Int × Option KVError :=
  match protoMarshal m with
  | .error e => (0, some e)
  | .ok bytes =>
      match doPut key bytes with
      | .terr code => (0, some (.transport code))
      | .resp none => (etcdVersionZero + 1, none)
      | .resp (some prev) => (prev.ver + 1, none)

/-- The single transaction `CheckAndSet` issues: a comparison
`Version(cmpKey) == cmpValue` and a `Put(putKey, putVal)`. -/
structure TxnRequest where
  cmpKey : String
  cmpValue : Int
  putKey : String
  putVal : List Nat
deriving DecidableEq

/-- A response to the CheckAndSet transaction: a transport error or the
`Succeeded` flag. -/
inductive TxnResp
  | terr (code : Nat)
  | resp (succeeded : Bool)
deriving DecidableEq

/-- Mirror of `client.CheckAndSet`: marshal, issue one transaction
`If(Version(key) == version) Then(Put(key, bytes))`; a failed comparison
yields (0, ErrVersionMismatch), success yields (version + 1, nil). -/
def CheckAndSet (doTxn : TxnRequest → TxnResp) (key : String) (version : Int) (m : ProtoMsg) :
    Int × Option KVError :=
  match protoMarshal m with
  | .error e => (0, some e)
  | .ok bytes =>
      match doTxn ⟨key, version, key, bytes⟩ with
      | .terr code => (0, some (.transport code))
      | .resp false => (0, some .versionMismatch)
      | .resp true => (version + 1, none)

/-- Mirror of `client.SetIfNotExists`: CheckAndSet with expected version
`etcdVersionZero`, remapping ErrVersionMismatch to ErrAlreadyExists. -/
def SetIfNotExists (doTxn : TxnRequest → TxnResp) (key : String) (m : ProtoMsg) :
    Int × Option KVError :=
  match CheckAndSet doTxn key etcdVersionZero m with
  | (version, err) =>
      (version, if err = some KVError.versionMismatch then some KVError.alreadyExists else err)

/-- The spec's words for SetIfNotExists (§4.6): "implemented as CheckAndSet
with expected version 0; a version mismatch is remapped to already
exists" — every other outcome of CheckAndSet is passed through. -/
def setIfNotExistsSpec (doTxn : TxnRequest → TxnResp) (key : String) (m : ProtoMsg) :
    Int × Option KVError :=
  ((CheckAndSet doTxn key 0 m).1,
   if (CheckAndSet doTxn key 0 m).2 = some KVError.versionMismatch then
     some KVError.alreadyExists
   else (CheckAndSet doTxn key 0 m).2)

/-- A `kv.Condition`'s target type; `other` stands for any enumerant other
than `kv.TargetVersion`. -/
inductive KVTargetType
  | version
  | otherTarget
deriving DecidableEq

/-- A `kv.Condition`'s compare type; `otherCompare` stands for any enumerant
other than `kv.CompareEqual`. -/
inductive KVCompareType
  | equal
  | otherCompare
deriving DecidableEq

/-- A `kv.Condition`. -/
structure Condition where
  key : String
  targetType : KVTargetType
  compareType : KVCompareType
  value : Int
deriving DecidableEq

/-- The etcd comparison `processCondition` builds. -/
structure EtcdCmp where
  key : String
  compareType : KVCompareType
  value : Int
deriving DecidableEq

/-- A `kv.Op`; `otherOp` stands for any op whose type is not `kv.OpSet`. -/
inductive KVOp
  | set (key : String) (m : ProtoMsg)
  | otherOp
deriving DecidableEq

/-- The etcd op `processOp` builds: `OpPut(key, value, WithPrevKV())`. -/
structure EtcdPutOp where
  key : String
  val : List Nat
deriving DecidableEq

/-- Mirror of `client.processCondition`. -/
def processCondition (c : Condition) : Except KVError EtcdCmp :=
  match c.targetType with
  | .otherTarget => .error .unknownTargetType
  | .version =>
      match c.compareType with
      | .otherCompare => .error .unknownCompareType
      | .equal => .ok ⟨c.key, .equal, c.value⟩

/-- Mirror of `client.processOp`. -/
def processOp (op : KVOp) : Except KVError EtcdPutOp :=
  match op with
  | .otherOp => .error .unknownOpType
  | .set key m =>
      match protoMarshal m with
      | .error e => .error e
      | .ok bytes => .ok ⟨key, bytes⟩

/-- The condition-processing loop of `client.Commit`, returning on the first
error. -/
def processConditions : List Condition → Except KVError (List EtcdCmp)
  | [] => .ok []
  | c :: rest =>
      match processCondition c with
      | .error e => .error e
      | .ok cmp =>
          match processConditions rest with
          | .error e => .error e
          | .ok cmps => .ok (cmp :: cmps)

/-- The op-processing loop of `client.Commit`, returning on the first
error. -/
def processOps : List KVOp → Except KVError (List EtcdPutOp)
  | [] => .ok []
  | op :: rest =>
      match processOp op with
      | .error e => .error e
      | .ok eop =>
          match processOps rest with
          | .error e => .error e
          | .ok eops => .ok (eop :: eops)

/-- A response to Commit's transaction: a transport error, or the
`Succeeded` flag with the per-op responses. Each per-op entry is
`GetResponsePut()`: `none` models a nil put response body, `some prevOpt`
a put response with optional `PrevKv`. -/
inductive TxnCommitResp
  | terr (code : Nat)
  | resp (succeeded : Bool) (responses : List (Option (Option EValue)))
deriving DecidableEq

/-- The version rule both Set and Commit apply to a put's previous KV:
`prev.Version + 1` when present, else `etcdVersionZero + 1`. -/
def versionFromPrev : Option EValue → Int
  | some prev => prev.ver + 1
  | none => etcdVersionZero + 1

/-- The response-processing loop of `client.Commit`
(`for i := range r.Responses`): each SET op response gets its version set
from that op's previous KV. Indexing `opResponses[i]` past the end is a Go
panic (`panicked`); a nil put response is `errNilPutResponse`. Op responses
not reached by the loop keep their initial unset (`none`) value. -/
def applyResponses : List (Option (Option EValue)) → List (Option Int) →
    Except KVError (List (Option Int))
  | [], oprs => .ok oprs
  | _ :: _, [] => .error .panicked
  | none :: _, _ :: _ => .error .nilPutResponse
  | some prevOpt :: rs, _ :: oprs =>
      match applyResponses rs oprs with
      | .error e => .error e
      | .ok rest =>
          .ok (some (match prevOpt with
                     | some prev => prev.ver + 1
                     | none => etcdVersionZero + 1) :: rest)

/-- Mirror of `client.Commit`: process conditions then ops (each returning
on the first error), commit the transaction, map a failed If to
ErrConditionCheckFailed, and fill each SET op response's version from its
previous KV. The result is the list of per-op response values. -/
def Commit (doTxn : List EtcdCmp → List EtcdPutOp → TxnCommitResp)
    (conditions : List Condition) (ops : List KVOp) : Except KVError (List (Option Int)) :=
  match processConditions conditions with
  | .error e => .error e
  | .ok cmps =>
      match processOps ops with
      | .error e => .error e
      | .ok etcdOps =>
          match doTxn cmps etcdOps with
          | .terr code => .error (.transport code)
          | .resp false _ => .error .conditionCheckFailed
          | .resp true responses => applyResponses responses (ops.map (fun _ => none))

/-- A response to an etcd Delete with `WithPrevKV()`. -/
structure DeleteResp where
  deleted : Int
  prevKvs : List EValue
deriving DecidableEq

/-- Delete's transport outcome. -/
inductive DeleteRes
  | terr (code : Nat)
  | resp (r : DeleteResp)
deriving DecidableEq

/-- Mirror of `client.Delete`: transport delete with previous-KV return;
zero deleted fails NotFound, otherwise the cache entry for the key is
removed and the value built from `PrevKvs[0]` is returned (`panicked`
models the Go panic on an empty `PrevKvs`, unreachable under etcd's
contract). -/
def Delete (dres : DeleteRes) (key : String) (cache : Cache) (ch : Bool) :
    Except KVError EValue × Cache × Bool :=
  match dres with
  | .terr code => (.error (.transport code), cache, ch)
  | .resp r =>
      if r.deleted = 0 then (.error .notFound, cache, ch)
      else
        match r.prevKvs with
        | [] => (.error .panicked, cache, ch)
        | p :: _ => (.ok (newValue p.val p.ver p.rev), deleteCache cache ch key)

/-- The five successive writes of one key used to settle the History
scenario: versions 1..5 at revisions 2..6. -/
def histKVs : List EValue :=
  [⟨[1], 1, 2⟩, ⟨[2], 2, 3⟩, ⟨[3], 3, 4⟩, ⟨[4], 4, 5⟩, ⟨[5], 5, 6⟩]

/-- The etcd transport for that key: a plain Get returns the latest KV; a
Get `WithRev(r)` returns the key's state as of revision `r`, i.e. the last
write with mod revision at most `r`, and a zero count before the first
write. -/
def histGet5 : Option Int → GetResp
  | none => GetResp.resp [⟨[5], 5, 6⟩]
  | some r =>
      match (histKVs.filter (fun kvr => decide (kvr.rev ≤ r))).getLast? with
      | some kvr => GetResp.resp [kvr]
      | none => GetResp.resp []

/-- The backward walk never produces the InvalidHistoryVersion error: that
error arises only from History's argument validation. -/
theorem historyLoop_ne_invalid (hg : Option Int → GetResp) (fromV toV : Int) :
    ∀ (fuel : Nat) (version modRev : Int) (res : List (Option EValue)),
    historyLoop hg fromV toV fuel version modRev res ≠
      Except.error KVError.invalidHistoryVersion := by
  intro fuel
  induction fuel with
  | zero =>
      intro version modRev res
      simp only [historyLoop]
      split
      · simp
      · simp
  | succ n ih =>
      intro version modRev res
      simp only [historyLoop]
      split
      · simp
      · cases h : hg (some (modRev - 1)) with
        | terr code => simp
        | resp kvs =>
            cases kvs with
            | nil => simp
            | cons v rest => exact ih _ _ _

/-- C1: `value.IsNewer` compares revisions whenever the other side is a
`*value` of this package (hence carries a revision) and falls back to
comparing versions only when the other side lacks one; in particular, for
two Values both carrying revisions, `a.IsNewer(b)` holds iff
`a.revision > b.revision`. -/
theorem isNewer_contract :
    ∀ (a b : EValue) (ver : Int),
    (IsNewer a (KVValue.ev b) = true ↔ a.rev > b.rev) ∧
    (IsNewer a (KVValue.foreign ver) = true ↔ a.ver > ver) := by
  intro a b ver
  constructor <;> simp [IsNewer]

/-- C2: `get` merges a successful nonzero read into the cache via the
newer-only rule and returns it; a zero-count read deletes any cache entry
for the fully-qualified key and fails NotFound; a transport error is
answered from the cache when an entry exists and surfaced otherwise. -/
theorem get_contract :
    (∀ (kv : EValue) (rest : List EValue) (key : String) (cache : Cache) (ch : Bool),
       clientGet (GetResp.resp (kv :: rest)) key cache ch =
         (Except.ok (newValue kv.val kv.ver kv.rev),
          mergeCache cache ch key (newValue kv.val kv.ver kv.rev))) ∧
    (∀ (key : String) (cache : Cache) (ch : Bool),
       clientGet (GetResp.resp []) key cache ch =
         (Except.error KVError.notFound, deleteCache cache ch key)) ∧
    (∀ (code : Nat) (key : String) (cache : Cache) (ch : Bool) (v : EValue),
       getCache cache key = some v →
       clientGet (GetResp.terr code) key cache ch = (Except.ok v, cache, ch)) ∧
    (∀ (code : Nat) (key : String) (cache : Cache) (ch : Bool),
       getCache cache key = none →
       clientGet (GetResp.terr code) key cache ch =
         (Except.error (KVError.transport code), cache, ch)) := by
  refine ⟨fun kv rest key cache ch => rfl, fun key cache ch => rfl, ?_, ?_⟩
  · intro code key cache ch v h
    simp [clientGet, h]
  · intro code key cache ch h
    simp [clientGet, h]

/-- Witness for C2 at concrete inputs: a transport error with a cache hit is
answered from the cache, and with a cache miss it is surfaced. -/
theorem get_contract_witness :
    clientGet (GetResp.terr 3) "k" [("k", ⟨[1], 1, 1⟩)] false =
      (Except.ok ⟨[1], 1, 1⟩, [("k", ⟨[1], 1, 1⟩)], false) ∧
    clientGet (GetResp.terr 3) "j" [] true =
      (Except.error (KVError.transport 3), [], true) :=
  ⟨get_contract.2.2.1 3 "k" [("k", ⟨[1], 1, 1⟩)] false ⟨[1], 1, 1⟩ rfl,
   get_contract.2.2.2 3 "j" [] true rfl⟩

/-- C3 counterexample: with an empty event batch, a retried point read that
fails with NotFound (transport succeeds with zero count) does NOT leave the
watchable untouched when it currently holds a value — the callback delivers
`Update(nil)`, contradicting the claim that the callback does nothing
whenever the read fails, including with NotFound. -/
theorem update_empty_read_cex :
    (clientGet (GetResp.resp []) "k" [] false).1 = Except.error KVError.notFound ∧
    update "k" [GetResp.resp []] [] (some ⟨[7], 1, 1⟩) [] false =
      (Delivery.upd none, [], false) ∧
    (update "k" [GetResp.resp []] [] (some ⟨[7], 1, 1⟩) [] false).1 ≠ Delivery.noop :=
  ⟨rfl, rfl, by decide⟩

/-- C3 amended: with an empty event batch, the callback does nothing when
the retried point read fails with an error other than NotFound; when the
read yields NotFound the client proceeds with a nil value, so nothing is
delivered exactly when the watchable holds nil, and otherwise an
`Update(nil)` (deletion) is delivered. -/
theorem update_empty_read_amended :
    ∀ (key : String) (attempts : List GetResp) (curValue : Option EValue)
      (cache : Cache) (ch : Bool) (nvp : Option EValue) (e : KVError)
      (c2 : Cache) (ch2 : Bool),
    (getFromKVStore key attempts cache ch = ((nvp, some e), c2, ch2) →
       update key attempts [] curValue cache ch = (Delivery.noop, c2, ch2)) ∧
    (getFromKVStore key attempts cache ch = ((none, none), c2, ch2) →
       update key attempts [] curValue cache ch =
         ((match curValue with
           | none => Delivery.noop
           | some _ => Delivery.upd none), c2, ch2)) := by
  intro key attempts curValue cache ch nvp e c2 ch2
  constructor
  · intro h
    simp only [update]
    rw [h]
  · intro h
    simp only [update]
    rw [h]
    cases curValue <;> rfl

/-- Witness for C3 amended: a retried read exhausting its attempts with a
transport error leads to no delivery, and a NotFound read with an empty
watchable also leads to no delivery. -/
theorem update_empty_read_amended_witness :
    update "k" [GetResp.terr 5] [] (some ⟨[7], 1, 1⟩) [] false =
      (Delivery.noop, [], false) ∧
    update "k" [GetResp.resp []] [] none [] false = (Delivery.noop, [], false) :=
  ⟨(update_empty_read_amended "k" [GetResp.terr 5] (some ⟨[7], 1, 1⟩) [] false
      none (KVError.transport 5) [] false).1 rfl,
   (update_empty_read_amended "k" [GetResp.resp []] none [] false
      none KVError.notFound [] false).2 rfl⟩

/-- C4: History fails with InvalidHistoryVersion exactly when the arguments
violate 0 ≤ from ≤ to, and a valid `from == to` call returns an empty
result with no error for every transport whatsoever (it never consults the
store). -/
theorem history_bounds_contract :
    ∀ (hg : Option Int → GetResp) (fromV toV : Int) (fuel : Nat),
    (History hg fromV toV fuel = Except.error KVError.invalidHistoryVersion ↔
       fromV > toV ∨ fromV < 0 ∨ toV < 0) ∧
    (0 ≤ fromV → History hg fromV fromV fuel = Except.ok []) := by
  intro hg fromV toV fuel
  constructor
  · constructor
    · intro h
      by_contra hc
      rw [History, if_neg hc] at h
      split at h
      · exact absurd h (by simp)
      · split at h
        · simp at h
        · simp at h
        · dsimp only at h
          split at h
          · simp at h
          · exact historyLoop_ne_invalid hg fromV toV fuel _ _ _ h
    · intro hc
      rw [History, if_pos hc]
  · intro h0
    rw [History, if_neg (by omega), if_pos rfl]

/-- Witness for C4: `from == to == 2` returns empty with no error, and
`from = 5 > to = 2` returns InvalidHistoryVersion. -/
theorem history_bounds_witness :
    History (fun _ => GetResp.resp []) 2 2 5 = Except.ok [] ∧
    History (fun _ => GetResp.resp []) 5 2 5 =
      Except.error KVError.invalidHistoryVersion :=
  ⟨(history_bounds_contract (fun _ => GetResp.resp []) 2 2 5).2 (by decide),
   (history_bounds_contract (fun _ => GetResp.resp []) 5 2 5).1.mpr (by decide)⟩

/-- C5 counterexample: for a key written five times (versions 1..5 at
revisions 2..6), `History(k, 0, 3)` does not return the Values at versions
1..3 — the backward walk runs while `version > from = 0`, fetches at the
revision before the key's first write, finds a zero count and fails with
"could not find version 0". -/
theorem history_zero_from_cex :
    History histGet5 0 3 20 = Except.error (KVError.couldNotFindVersion 0) := by
  rfl

/-- C5 amended: for a key written five times the version bounds are
half-open with an exclusive upper bound `to`, so it is `History(k, 1, 4)`
that returns the Values at versions 1, 2 and 3 in ascending version order;
`History(k, 0, 3)` instead fails because the walk steps below the key's
first version. -/
theorem history_five_writes_amended :
    History histGet5 1 4 20 =
      Except.ok [some ⟨[1], 1, 2⟩, some ⟨[2], 2, 3⟩, some ⟨[3], 3, 4⟩] := by
  rfl

/-- C6: CheckAndSet issues a single transaction comparing
`Version(key) == version` and putting the marshalled bytes; a failed
comparison returns (0, ErrVersionMismatch) and a succeeded transaction
returns (version + 1, nil). -/
theorem checkAndSet_contract :
    ∀ (doTxn : TxnRequest → TxnResp) (key : String) (version : Int) (m : ProtoMsg)
      (bytes : List Nat),
    protoMarshal m = Except.ok bytes →
    (doTxn ⟨key, version, key, bytes⟩ = TxnResp.resp false →
       CheckAndSet doTxn key version m = (0, some KVError.versionMismatch)) ∧
    (doTxn ⟨key, version, key, bytes⟩ = TxnResp.resp true →
       CheckAndSet doTxn key version m = (version + 1, none)) := by
  intro doTxn key version m bytes hm
  constructor <;> intro h <;> simp [CheckAndSet, hm, h]

/-- Witness for C6: a succeeding transaction yields version 4 from expected
version 3; a failing comparison yields the mismatch error with version 0. -/
theorem checkAndSet_contract_witness :
    CheckAndSet (fun _ => TxnResp.resp true) "k" 3 ⟨[9], false⟩ = (4, none) ∧
    CheckAndSet (fun _ => TxnResp.resp false) "k" 3 ⟨[9], false⟩ =
      (0, some KVError.versionMismatch) :=
  ⟨(checkAndSet_contract (fun _ => TxnResp.resp true) "k" 3 ⟨[9], false⟩ [9] rfl).2 rfl,
   (checkAndSet_contract (fun _ => TxnResp.resp false) "k" 3 ⟨[9], false⟩ [9] rfl).1 rfl⟩

/-- C7: SetIfNotExists returns exactly the result of CheckAndSet with
expected version 0 except that ErrVersionMismatch is replaced by
ErrAlreadyExists; every other outcome is identical (the spec-side
definition `setIfNotExistsSpec` is that description verbatim). -/
theorem setIfNotExists_refines :
    ∀ (doTxn : TxnRequest → TxnResp) (key : String) (m : ProtoMsg),
    SetIfNotExists doTxn key m = setIfNotExistsSpec doTxn key m :=
  fun _ _ _ => rfl

/-- Per-op response filling: when every put response body is present, each
SET op's response version is computed from that op's previous KV by the
shared `prev.version + 1`-else-1 rule. -/
theorem applyResponses_ok :
    ∀ (rs : List (Option (Option EValue))) (oprs : List (Option Int)),
    rs.length = oprs.length → (∀ x, x ∈ rs → x ≠ none) →
    applyResponses rs oprs =
      Except.ok (rs.map (fun x => some (versionFromPrev (x.getD none)))) := by
  intro rs
  induction rs with
  | nil =>
      intro oprs hlen hmem
      cases oprs with
      | nil => rfl
      | cons o os => simp at hlen
  | cons r rs ih =>
      intro oprs hlen hmem
      cases oprs with
      | nil => simp at hlen
      | cons o os =>
          cases r with
          | none => exact absurd rfl (hmem none (by simp))
          | some prevOpt =>
              simp only [applyResponses]
              rw [ih os (by simpa using hlen) (fun x hx => hmem x (by simp [hx]))]
              rfl

/-- C8: a successful Set returns `prev.version + 1` when the transport
reports a previous KV and 1 otherwise; within a successful Commit every SET
op response carries a version computed by the same rule from that op's
previous KV. -/
theorem set_and_commit_version_rule :
    (∀ (doPut : String → List Nat → PutResp) (key : String) (m : ProtoMsg)
       (bytes : List Nat) (prev : EValue),
       protoMarshal m = Except.ok bytes →
       (doPut key bytes = PutResp.resp none → Set doPut key m = (1, none)) ∧
       (doPut key bytes = PutResp.resp (some prev) →
          Set doPut key m = (prev.ver + 1, none))) ∧
    (∀ (doTxn : List EtcdCmp → List EtcdPutOp → TxnCommitResp)
       (conditions : List Condition) (ops : List KVOp)
       (cmps : List EtcdCmp) (etcdOps : List EtcdPutOp)
       (responses : List (Option (Option EValue))),
       processConditions conditions = Except.ok cmps →
       processOps ops = Except.ok etcdOps →
       doTxn cmps etcdOps = TxnCommitResp.resp true responses →
       responses.length = ops.length →
       (∀ x, x ∈ responses → x ≠ none) →
       Commit doTxn conditions ops =
         Except.ok (responses.map (fun x => some (versionFromPrev (x.getD none))))) := by
  constructor
  · intro doPut key m bytes prev hm
    constructor <;> intro h <;> simp [Set, hm, h, etcdVersionZero]
  · intro doTxn conditions ops cmps etcdOps responses hconds hops htxn hlen hmem
    simp only [Commit, hconds, hops, htxn]
    exact applyResponses_ok responses (ops.map (fun _ => none)) (by simp [hlen]) hmem

/-- Witness for C8: a Set over a previous KV at version 4 returns 5, a first
write returns 1, and a two-op Commit fills versions 5 and 1 from the two
ops' previous KVs. -/
theorem set_and_commit_version_rule_witness :
    Set (fun _ _ => PutResp.resp (some ⟨[], 4, 9⟩)) "k" ⟨[1], false⟩ = (5, none) ∧
    Set (fun _ _ => PutResp.resp none) "k" ⟨[1], false⟩ = (1, none) ∧
    Commit (fun _ _ => TxnCommitResp.resp true [some (some ⟨[], 4, 9⟩), some none])
        [⟨"c", KVTargetType.version, KVCompareType.equal, 0⟩]
        [KVOp.set "a" ⟨[1], false⟩, KVOp.set "b" ⟨[2], false⟩] =
      Except.ok [some 5, some 1] := by
  refine ⟨?_, ?_, ?_⟩
  · exact (set_and_commit_version_rule.1 (fun _ _ => PutResp.resp (some ⟨[], 4, 9⟩))
      "k" ⟨[1], false⟩ [1] ⟨[], 4, 9⟩ rfl).2 rfl
  · exact (set_and_commit_version_rule.1 (fun _ _ => PutResp.resp none)
      "k" ⟨[1], false⟩ [1] ⟨[], 0, 0⟩ rfl).1 rfl
  · have h := set_and_commit_version_rule.2
      (fun _ _ => TxnCommitResp.resp true [some (some ⟨[], 4, 9⟩), some none])
      [⟨"c", KVTargetType.version, KVCompareType.equal, 0⟩]
      [KVOp.set "a" ⟨[1], false⟩, KVOp.set "b" ⟨[2], false⟩]
      [⟨"c", KVCompareType.equal, 0⟩] [⟨"a", [1]⟩, ⟨"b", [2]⟩]
      [some (some ⟨[], 4, 9⟩), some none] rfl rfl rfl rfl (by decide)
    rw [h]
    rfl

/-- C9: Delete issues the transport delete with previous-KV return; zero
deleted keys fail with NotFound and leave the cache alone, otherwise the
cache entry for the fully-qualified key is removed and the previous Value
built from the first previous KV is returned. -/
theorem delete_contract :
    ∀ (key : String) (cache : Cache) (ch : Bool) (r : DeleteResp) (p : EValue)
      (rest : List EValue),
    (r.deleted = 0 →
       Delete (DeleteRes.resp r) key cache ch =
         (Except.error KVError.notFound, cache, ch)) ∧
    (r.deleted ≠ 0 → r.prevKvs = p :: rest →
       Delete (DeleteRes.resp r) key cache ch =
         (Except.ok (newValue p.val p.ver p.rev), deleteCache cache ch key)) := by
  intro key cache ch r p rest
  constructor
  · intro h
    simp [Delete, h]
  · intro h hp
    simp [Delete, h, hp]

/-- Witness for C9: a zero-deleted response fails NotFound; a one-deleted
response returns the previous Value and removes the cache entry (signalling
the persister). -/
theorem delete_contract_witness :
    Delete (DeleteRes.resp ⟨0, []⟩) "k" [] false =
      (Except.error KVError.notFound, [], false) ∧
    Delete (DeleteRes.resp ⟨1, [⟨[3], 2, 7⟩]⟩) "k" [("k", ⟨[3], 2, 7⟩)] false =
      (Except.ok ⟨[3], 2, 7⟩, [], true) :=
  ⟨(delete_contract "k" [] false ⟨0, []⟩ ⟨[], 0, 0⟩ []).1 rfl,
   (delete_contract "k" [("k", ⟨[3], 2, 7⟩)] false ⟨1, [⟨[3], 2, 7⟩]⟩
      ⟨[3], 2, 7⟩ []).2 (by decide) rfl⟩

/-- C10: cache mutations signal the one-slot persister wakeup only when the
map actually changed — deleting an absent key returns with the map and the
channel untouched, and merging a value that is not newer than the existing
entry likewise leaves both untouched. -/
theorem cache_signal_frame :
    (∀ (cache : Cache) (ch : Bool) (key : String),
       cacheLookup cache key = none → deleteCache cache ch key = (cache, ch)) ∧
    (∀ (cache : Cache) (ch : Bool) (key : String) (v cur : EValue),
       cacheLookup cache key = some cur → IsNewer v (KVValue.ev cur) = false →
       mergeCache cache ch key v = (cache, ch)) := by
  constructor
  · intro cache ch key h
    simp [deleteCache, h]
  · intro cache ch key v cur h hn
    simp [mergeCache, h, hn]

/-- Witness for C10: deleting a key absent from a one-entry cache and
merging a same-revision value over an existing entry both leave the cache
and the (empty) wakeup slot unchanged. -/
theorem cache_signal_frame_witness :
    deleteCache [("a", ⟨[], 1, 5⟩)] false "b" = ([("a", ⟨[], 1, 5⟩)], false) ∧
    mergeCache [("a", ⟨[], 1, 5⟩)] false "a" ⟨[], 2, 5⟩ =
      ([("a", ⟨[], 1, 5⟩)], false) :=
  ⟨cache_signal_frame.1 [("a", ⟨[], 1, 5⟩)] false "b" rfl,
   cache_signal_frame.2 [("a", ⟨[], 1, 5⟩)] false "a" ⟨[], 2, 5⟩ ⟨[], 1, 5⟩ rfl rfl⟩

end M3KV
